import Mathlib

/-!
Verification of the Dreambooks analysis layer.

The embedding models the six analysis strategies of `src/analyzers.py`, the
analyzer registry (`AnalysisContext`), and the top-10-plus-"Other" collapsing
done in `src/cli.py`, over an explicit list-of-rows data model of the pandas
DataFrame the strategies receive.

Conventions of the embedding:
* a DataFrame is a `List Row`; each `Row` carries the five columns the
  strategies read, each as an optional value (`none` models NaN/None);
* the publication-date column is loosely typed (`CellVal`): a numeric value,
  a non-numeric string, or missing — mirroring what `pd.to_numeric(...,
  errors='coerce')` distinguishes;
* a pandas `Series` is an association list in index order; `value_counts`
  is counting over first-occurrence keys followed by a stable sort by
  descending count, which is how pandas produces it;
* `scipy.stats.linregress` is modelled over exact rationals; the Pearson
  r-value, irrational in general, is represented exactly by its sign
  (`rSign`) together with its square (`r2`, the quantity `r_value**2`
  that the description string prints).
-/

/-- A cell of the publication-date column: a numeric value, a non-numeric
string (which `pd.to_numeric(..., errors='coerce')` turns into NaN), or a
missing value (NaN/None). -/
inductive CellVal where
  | num (y : Int)
  | invalid
  | missing
deriving DecidableEq, Repr

/-- One row of the loaded DataFrame, restricted to the five columns the
analyzers read: 'publication date', 'author', 'language', 'book publisher'
and 'ISBN'.  `none` models a missing value. -/
structure Row where
  pubDate : CellVal := CellVal.missing
  author : Option String := none
  language : Option String := none
  publisher : Option String := none
  isbn : Option String := none
deriving DecidableEq, Repr

/-- First-occurrence deduplication: the key order produced by the hash-based
grouping underlying pandas `value_counts` (keys appear in order of first
encounter before any sort is applied). -/
def uniq {α : Type} [DecidableEq α] (xs : List α) : List α :=
  xs.foldl (fun acc a => if a ∈ acc then acc else acc ++ [a]) []

/-- Ascending sort of integer keys, as `Series.sort_index()` does for an
integer index. -/
def sortIntAsc (xs : List Int) : List Int :=
  List.insertionSort (fun a b => a ≤ b) xs

/-- Codepoint-wise lexicographic comparison of character lists, the order
pandas uses on string labels. -/
def charListLe : List Char → List Char → Bool
  | [], _ => true
  | _ :: _, [] => false
  | a :: as, b :: bs =>
    if a.toNat < b.toNat then true
    else if b.toNat < a.toNat then false
    else charListLe as bs

/-- Lexicographic comparison of strings by codepoint. -/
def strLe (a b : String) : Bool := charListLe a.data b.data

/-- Ascending sort of string labels, as `unstack` orders column labels. -/
def sortStrAsc (xs : List String) : List String :=
  List.insertionSort (fun a b => strLe a b = true) xs

/-- Stable insertion of a (key, count) pair into a list that is sorted by
weakly decreasing count: the new pair is placed after every pair whose count
is greater than or equal to its own. -/
def insertDesc (p : String × Nat) : List (String × Nat) → List (String × Nat)
  | [] => [p]
  | q :: qs => if q.2 < p.2 then p :: q :: qs else q :: insertDesc p qs

/-- Stable sort by descending count (pandas `value_counts` uses a stable
sort, so equal counts keep their first-encounter order). -/
def sortCountDesc (l : List (String × Nat)) : List (String × Nat) :=
  l.foldl (fun acc p => insertDesc p acc) []

/-- pandas `Series.value_counts()` on a string column whose missing values
were already dropped by the caller (`value_counts` itself drops NaN):
occurrences per distinct value, sorted by descending count, ties kept in
first-encounter order. -/
def value_counts (xs : List String) : List (String × Nat) :=
  sortCountDesc ((uniq xs).map (fun a => (a, xs.count a)))

/-- The numeric year carried by a row's publication-date cell, if any.
This composes the `dropna(subset=['publication date'])`, the
`pd.to_numeric(..., errors='coerce')` and the second `dropna()` of
`PublicationTrendAnalyzer.analyze`: only rows whose publication date is a
numeric value survive all three. -/
def yearKey (r : Row) : Option Int :=
  match r.pubDate with
  | CellVal.num y => some y
  | _ => none

/-- The surviving publication years before the range filter. -/
def coercedYears (rows : List Row) : List Int :=
  rows.filterMap yearKey

/-- `years[(years > 1000) & (years < 2100)]`: the range filter, both bounds
exclusive. -/
def trendYears (rows : List Row) : List Int :=
  (coercedYears rows).filter (fun y => decide (1000 < y) && decide (y < 2100))

/-- `years.value_counts().sort_index()`: count per distinct year, keyed by
year in ascending order. -/
def yearValueCounts (xs : List Int) : List (Int × Nat) :=
  (sortIntAsc (uniq xs)).map (fun y => (y, xs.count y))

/-- The Count Series produced by `PublicationTrendAnalyzer.analyze` (the
`trends` variable of the source). -/
def publicationTrendCounts (rows : List Row) : List (Int × Nat) :=
  yearValueCounts (trendYears rows)

/-- `scipy.stats.linregress` over exact rationals.  Returns
(slope, intercept, rSign, r2) where the Pearson r-value equals
rSign * sqrt r2; `r2` is the quantity `r_value**2` that the description
string prints.  scipy computes `r = 0` when either variance vanishes; the
same guard appears here for `r2`.  In the degenerate one-point case scipy's
`0.0/0.0` produces IEEE NaN for the slope; the rational model yields 0
there (division by zero), and no claim is settled about field values in
that case. -/
def linregress (pts : List (ℚ × ℚ)) : ℚ × ℚ × Int × ℚ :=
  let n : ℚ := pts.length
  let xm := (pts.map Prod.fst).sum / n
  let ym := (pts.map Prod.snd).sum / n
  let ssxm := (pts.map (fun p => (p.1 - xm) ^ 2)).sum / n
  let ssxym := (pts.map (fun p => (p.1 - xm) * (p.2 - ym))).sum / n
  let ssym := (pts.map (fun p => (p.2 - ym) ^ 2)).sum / n
  let slope := ssxym / ssxm
  let intercept := ym - slope * xm
  let r2 := if ssxm = 0 ∨ ssym = 0 then 0 else ssxym ^ 2 / (ssxm * ssym)
  let rSign : Int := if ssxym < 0 then -1 else if ssxym = 0 then 0 else 1
  (slope, intercept, rSign, r2)

/-- Python `"{:.2f}"` formatting of an exact rational, integer part: round
the value times 100 to the nearest integer, halves to even. -/
def round2 (q : ℚ) : Int :=
  let x := q * 100
  let f := Rat.floor x
  let frac := x - f
  if frac < 1 / 2 then f
  else if 1 / 2 < frac then f + 1
  else if f % 2 = 0 then f else f + 1

/-- Python `"{:.2f}"` formatting of an exact rational. -/
def fmt2 (q : ℚ) : String :=
  let n := round2 q
  let m := n.natAbs
  (if n < 0 then "-" else "") ++ toString (m / 100) ++ "." ++
    (if m % 100 < 10 then "0" else "") ++ toString (m % 100)

/-- The f-string
`f"Linear Trend: y = (slope:.2f)x + (intercept:.2f) (R2=(r_value**2:.2f))"`
of the source (format fields written here with parentheses). -/
def trendDescription (slope intercept r2 : ℚ) : String :=
  "Linear Trend: y = " ++ fmt2 slope ++ "x + " ++ fmt2 intercept ++
    " (R2=" ++ fmt2 r2 ++ ")"

/-- The `trend_line` dictionary built by `PublicationTrendAnalyzer.analyze`. -/
structure TrendLine where
  slope : ℚ
  intercept : ℚ
  rSign : Int
  r2 : ℚ
  description : String
deriving DecidableEq, Repr

/-- The dictionary returned by `PublicationTrendAnalyzer.analyze`:
the year counts plus an optional trend line. -/
structure TrendResult where
  counts : List (Int × Nat)
  trend_line : Option TrendLine
deriving DecidableEq, Repr

/-- The trend line computed from a non-empty count series:
`stats.linregress(x, y)` on (years, counts) plus the description string. -/
def mkTrendLine (counts : List (Int × Nat)) : TrendLine :=
  let lr := linregress (counts.map (fun p => ((p.1 : ℚ), (p.2 : ℚ))))
  { slope := lr.1
    intercept := lr.2.1
    rSign := lr.2.2.1
    r2 := lr.2.2.2
    description := trendDescription lr.1 lr.2.1 lr.2.2.2 }

/-- `PublicationTrendAnalyzer.analyze`: year counts in ascending key order;
when the series is non-empty, also the fitted trend line. -/
def PublicationTrendAnalyzer.analyze (rows : List Row) : TrendResult :=
  let trends := publicationTrendCounts rows
  if trends = [] then { counts := trends, trend_line := none }
  else { counts := trends, trend_line := some (mkTrendLine trends) }

/-- `AuthorsAnalyzer.analyze`: `data['author'].value_counts().head(5)`. -/
def AuthorsAnalyzer.analyze (rows : List Row) : List (String × Nat) :=
  (value_counts (rows.filterMap (fun r => r.author))).take 5

/-- `LanguageDistributionAnalyzer.analyze`:
`data['language'].value_counts()`. -/
def LanguageDistributionAnalyzer.analyze (rows : List Row) : List (String × Nat) :=
  value_counts (rows.filterMap (fun r => r.language))

/-- `PublisherAnalyzer.analyze`: `data['book publisher'].value_counts()`. -/
def PublisherAnalyzer.analyze (rows : List Row) : List (String × Nat) :=
  value_counts (rows.filterMap (fun r => r.publisher))

/-- `MissingISBNAnalyzer.analyze`: the two-entry series
(missing count, present count) where the present count is computed as
total minus missing, exactly as in the source. -/
def MissingISBNAnalyzer.analyze (rows : List Row) : List (String × Nat) :=
  let total := rows.length
  let missing_count := rows.countP (fun r => r.isbn.isNone)
  let present_count := total - missing_count
  [("Missing ISBN", missing_count), ("With ISBN", present_count)]

/-- The (year, language) group key of a row, if the row contributes a
group: `groupby(['publication date', 'language'])` drops every row whose
key contains a missing value.  In a loaded Record Set the publication-date
column is numeric-or-missing (the loader applied
`pd.to_numeric(..., errors='coerce')`), so contributing keys are
(numeric year, language) pairs. -/
def gridKey (r : Row) : Option (Int × String) :=
  match r.pubDate, r.language with
  | CellVal.num y, some l => some (y, l)
  | _, _ => none

/-- The multiset of group keys of `groupby(['publication date',
'language']).size()`. -/
def gridPairs (rows : List Row) : List (Int × String) :=
  rows.filterMap gridKey

/-- The pivoted grid of `LanguageYearAnalyzer.analyze`: row labels are the
distinct years (ascending), column labels the distinct languages
(ascending, as `unstack` sorts them), and each cell holds the group size,
`fill_value=0` making absent combinations 0. -/
structure GridResult where
  rowKeys : List Int
  colKeys : List String
  cell : Int → String → Nat

/-- `LanguageYearAnalyzer.analyze`:
`data.groupby(['publication date', 'language']).size().unstack(fill_value=0)`. -/
def LanguageYearAnalyzer.analyze (rows : List Row) : GridResult :=
  let pairs := gridPairs rows
  { rowKeys := sortIntAsc (uniq (pairs.map Prod.fst))
    colKeys := sortStrAsc (uniq (pairs.map Prod.snd))
    cell := fun y l => pairs.count (y, l) }

/-- The sum of every cell of the grid. -/
def gridTotal (g : GridResult) : Nat :=
  (g.rowKeys.map (fun y => (g.colKeys.map (fun l => g.cell y l)).sum)).sum

/-- Post-load invariant established by `CSVDataLoader.load_data`: the
publication-date column was coerced with `pd.to_numeric(...,
errors='coerce')`, so its cells are numeric or missing, never a non-numeric
string. -/
def Cleaned (rows : List Row) : Prop :=
  ∀ r ∈ rows, r.pubDate ≠ CellVal.invalid

/-- `AnalysisContext._analyzers` is a Python dict: insertion-ordered
key/value pairs.  `register_analyzer` assigns `self._analyzers[key] =
analyzer`: an existing key is overwritten in place (keeping its original
position), a new key is appended at the end. -/
def AnalysisContext.register_analyzer {α : Type} (m : List (String × α))
    (k : String) (v : α) : List (String × α) :=
  if m.any (fun p => p.1 == k) then
    m.map (fun p => if p.1 == k then (k, v) else p)
  else m ++ [(k, v)]

/-- `AnalysisContext.get_analyzer` is `dict.get`: the registered entry, or
`none` when the key is absent; it never raises. -/
def AnalysisContext.get_analyzer {α : Type} (m : List (String × α))
    (k : String) : Option α :=
  (m.find? (fun p => p.1 == k)).map Prod.snd

/-- `AnalysisContext.get_available_analyses` is
`list(self._analyzers.keys())`: the keys in registration order. -/
def AnalysisContext.get_available_analyses {α : Type}
    (m : List (String × α)) : List String :=
  m.map Prod.fst

/-- pandas label assignment `series[k] = v`: an existing label is
overwritten, otherwise a new entry is appended at the end. -/
def setLabel (s : List (String × Nat)) (k : String) (v : Nat) :
    List (String × Nat) :=
  if s.any (fun p => p.1 == k) then s.map (fun p => if p.1 == k then (k, v) else p)
  else s ++ [(k, v)]

/-- The collapsing performed by `CLI.run` for choices "3" and "4" before
rendering: when the series has more than 10 entries, keep `head(10)` and
assign `result.iloc[10:].sum()` to the label 'Other'; otherwise pass the
series through unchanged. -/
def collapseTop10 (s : List (String × Nat)) : List (String × Nat) :=
  if 10 < s.length then
    setLabel (s.take 10) "Other" (((s.drop 10).map Prod.snd).sum)
  else s

/-!
Stateful views of the six strategies, for the no-mutation claim.  Every
pandas operation each `analyze` body performs — `dropna` without
`inplace=True`, `pd.to_numeric`, `astype`, boolean indexing,
`value_counts`, `sort_index`, `head`, `isna().sum()`, `len`,
`groupby(...).size().unstack(...)` — returns a fresh object and leaves its
receiver untouched; the bodies only rebind local names.  The DataFrame the
caller passed in is therefore unchanged when `analyze` returns, which the
stateful views record by returning the result together with the
post-invocation state of the caller's DataFrame. -/

/-- `PublicationTrendAnalyzer.analyze` with the caller's DataFrame threaded
through as state. -/
def PublicationTrendAnalyzer.analyzeS (data : List Row) : TrendResult × List Row :=
  (PublicationTrendAnalyzer.analyze data, data)

/-- `AuthorsAnalyzer.analyze` with the caller's DataFrame threaded through. -/
def AuthorsAnalyzer.analyzeS (data : List Row) : List (String × Nat) × List Row :=
  (AuthorsAnalyzer.analyze data, data)

/-- `LanguageDistributionAnalyzer.analyze` with the caller's DataFrame
threaded through. -/
def LanguageDistributionAnalyzer.analyzeS (data : List Row) :
    List (String × Nat) × List Row :=
  (LanguageDistributionAnalyzer.analyze data, data)

/-- `PublisherAnalyzer.analyze` with the caller's DataFrame threaded
through. -/
def PublisherAnalyzer.analyzeS (data : List Row) : List (String × Nat) × List Row :=
  (PublisherAnalyzer.analyze data, data)

/-- `MissingISBNAnalyzer.analyze` with the caller's DataFrame threaded
through. -/
def MissingISBNAnalyzer.analyzeS (data : List Row) : List (String × Nat) × List Row :=
  (MissingISBNAnalyzer.analyze data, data)

/-- `LanguageYearAnalyzer.analyze` with the caller's DataFrame threaded
through. -/
def LanguageYearAnalyzer.analyzeS (data : List Row) : GridResult × List Row :=
  (LanguageYearAnalyzer.analyze data, data)

/-!  Concrete datasets used as examples and witnesses. -/

/-- The example dataset of the spec and of `tests/test_analysis_logic.py`:
dates [2020, 2021, 2020, invalid, missing, 2022, 1900, 2150], authors
[A, B, A, C, A, B, D, E], languages, publishers and ISBNs as in the test
fixture (ISBN missing at positions 2 and 4). -/
def specRows : List Row :=
  [ { pubDate := CellVal.num 2020, author := some ("Author A"),
      language := some ("English"), publisher := some ("Pub 1"),
      isbn := some ("123") },
    { pubDate := CellVal.num 2021, author := some ("Author B"),
      language := some ("Tamil"), publisher := some ("Pub 2"),
      isbn := some ("456") },
    { pubDate := CellVal.num 2020, author := some ("Author A"),
      language := some ("English"), publisher := some ("Pub 1"),
      isbn := none },
    { pubDate := CellVal.invalid, author := some ("Author C"),
      language := some ("French"), publisher := some ("Pub 3"),
      isbn := some ("789") },
    { pubDate := CellVal.missing, author := some ("Author A"),
      language := some ("English"), publisher := some ("Pub 1"),
      isbn := none },
    { pubDate := CellVal.num 2022, author := some ("Author B"),
      language := some ("Tamil"), publisher := some ("Pub 2"),
      isbn := some ("012") },
    { pubDate := CellVal.num 1900, author := some ("Author D"),
      language := some ("Spanish"), publisher := some ("Pub 4"),
      isbn := some ("345") },
    { pubDate := CellVal.num 2150, author := some ("Author E"),
      language := some ("German"), publisher := some ("Pub 5"),
      isbn := some ("678") } ]

/-- A dataset with one valid publication year: the degenerate single-point
regression input. -/
def oneYearRows : List Row :=
  [ { pubDate := CellVal.num 2020 } ]

/-- A dataset with two distinct years, one book each: a non-degenerate
two-point regression input with simple exact statistics. -/
def twoYearRows : List Row :=
  [ { pubDate := CellVal.num 2001 }, { pubDate := CellVal.num 2003 } ]

/-- Authors B, A, B, A, C: the counts of A and B tie at 2, and
first-encounter order (B before A) differs from alphabetical order. -/
def tieRows : List Row :=
  [ { author := some ("B") }, { author := some ("A") },
    { author := some ("B") }, { author := some ("A") },
    { author := some ("C") } ]

/-- A cleaned dataset in which one row is missing its language and one is
missing its publication date: those two rows contribute to no grid cell. -/
def gridRows : List Row :=
  [ { pubDate := CellVal.num 2020, language := some ("English") },
    { pubDate := CellVal.num 2019, language := some ("Tamil") },
    { pubDate := CellVal.num 2020, language := none },
    { pubDate := CellVal.missing, language := some ("English") } ]

/-- A distribution series of 11 entries in which the label 'Other' is
itself one of the ten most frequent values. -/
def otherSeries : List (String × Nat) :=
  [("Other", 20), ("k1", 2), ("k2", 2), ("k3", 2), ("k4", 2), ("k5", 2),
   ("k6", 2), ("k7", 2), ("k8", 2), ("k9", 2), ("k10", 1)]

/-- A distribution series of 11 entries none of which is labelled 'Other'. -/
def bigSeries : List (String × Nat) :=
  [("a1", 12), ("a2", 11), ("a3", 10), ("a4", 9), ("a5", 8), ("a6", 7),
   ("a7", 6), ("a8", 5), ("a9", 4), ("a10", 3), ("a11", 2)]

/-! ### General lemmas about the embedded pandas primitives -/

theorem uniq_loop_mem {α : Type} [DecidableEq α] (xs : List α) (acc : List α) (b : α) :
    b ∈ xs.foldl (fun acc a => if a ∈ acc then acc else acc ++ [a]) acc
      ↔ b ∈ acc ∨ b ∈ xs := by
  induction xs generalizing acc with
  | nil => simp
  | cons a xs ih =>
    rw [List.foldl_cons, ih]
    by_cases h : a ∈ acc
    · simp only [if_pos h, List.mem_cons]
      constructor
      · rintro (hb | hb) <;> tauto
      · rintro (hb | rfl | hb) <;> tauto
    · simp only [if_neg h, List.mem_append, List.mem_singleton, List.mem_cons]
      tauto

theorem uniq_mem {α : Type} [DecidableEq α] (xs : List α) (b : α) :
    b ∈ uniq xs ↔ b ∈ xs := by
  unfold uniq
  rw [uniq_loop_mem]
  simp

theorem uniq_loop_nodup {α : Type} [DecidableEq α] (xs : List α) (acc : List α)
    (h : acc.Nodup) :
    (xs.foldl (fun acc a => if a ∈ acc then acc else acc ++ [a]) acc).Nodup := by
  induction xs generalizing acc with
  | nil => simpa
  | cons a xs ih =>
    rw [List.foldl_cons]
    by_cases ha : a ∈ acc
    · rw [if_pos ha]
      exact ih acc h
    · rw [if_neg ha]
      refine ih _ ?_
      simp [List.nodup_append, h, ha]

theorem uniq_nodup {α : Type} [DecidableEq α] (xs : List α) : (uniq xs).Nodup :=
  uniq_loop_nodup xs [] List.nodup_nil

theorem sortIntAsc_perm (xs : List Int) : List.Perm (sortIntAsc xs) xs :=
  List.perm_insertionSort _ xs

theorem sortIntAsc_mem (xs : List Int) (y : Int) : y ∈ sortIntAsc xs ↔ y ∈ xs :=
  (sortIntAsc_perm xs).mem_iff

theorem sortIntAsc_pairwise_lt (xs : List Int) (h : xs.Nodup) :
    (sortIntAsc xs).Pairwise (fun a b => a < b) := by
  have h1 : (sortIntAsc xs).Pairwise (fun a b => a ≤ b) :=
    List.sorted_insertionSort _ xs
  have h2 : (sortIntAsc xs).Nodup := (sortIntAsc_perm xs).nodup_iff.mpr h
  exact (h1.and h2).imp (fun hab => lt_of_le_of_ne hab.1 hab.2)

theorem sortStrAsc_mem (xs : List String) (s : String) : s ∈ sortStrAsc xs ↔ s ∈ xs :=
  (List.perm_insertionSort _ xs).mem_iff

theorem insertDesc_perm (p : String × Nat) (l : List (String × Nat)) :
    List.Perm (insertDesc p l) (p :: l) := by
  induction l with
  | nil => exact List.Perm.refl _
  | cons q qs ih =>
    by_cases h : q.2 < p.2
    · simp [insertDesc, h]
    · simp only [insertDesc, if_neg h]
      exact (ih.cons q).trans (List.Perm.swap p q qs)

theorem insertDesc_sorted (p : String × Nat) (l : List (String × Nat))
    (h : l.Pairwise (fun a b => b.2 ≤ a.2)) :
    (insertDesc p l).Pairwise (fun a b => b.2 ≤ a.2) := by
  induction l with
  | nil => simp [insertDesc]
  | cons q qs ih =>
    rw [List.pairwise_cons] at h
    by_cases hq : q.2 < p.2
    · simp only [insertDesc, if_pos hq]
      refine List.Pairwise.cons ?_ (List.Pairwise.cons h.1 h.2)
      intro x hx
      rcases List.mem_cons.mp hx with rfl | hx2
      · exact le_of_lt hq
      · exact le_trans (h.1 x hx2) (le_of_lt hq)
    · simp only [insertDesc, if_neg hq]
      refine List.Pairwise.cons ?_ (ih h.2)
      intro x hx
      rcases List.mem_cons.mp ((insertDesc_perm p qs).mem_iff.mp hx) with rfl | hx2
      · exact Nat.le_of_not_lt hq
      · exact h.1 x hx2

theorem sortCountDesc_loop_sorted (l : List (String × Nat)) (acc : List (String × Nat))
    (h : acc.Pairwise (fun a b => b.2 ≤ a.2)) :
    (l.foldl (fun acc p => insertDesc p acc) acc).Pairwise (fun a b => b.2 ≤ a.2) := by
  induction l generalizing acc with
  | nil => simpa
  | cons p l ih => exact ih _ (insertDesc_sorted p acc h)

theorem sortCountDesc_sorted (l : List (String × Nat)) :
    (sortCountDesc l).Pairwise (fun a b => b.2 ≤ a.2) :=
  sortCountDesc_loop_sorted l [] List.Pairwise.nil

theorem sortCountDesc_loop_perm (l : List (String × Nat)) (acc : List (String × Nat)) :
    List.Perm (l.foldl (fun acc p => insertDesc p acc) acc) (acc ++ l) := by
  induction l generalizing acc with
  | nil => simp
  | cons p l ih =>
    rw [List.foldl_cons]
    refine (ih (insertDesc p acc)).trans ?_
    refine ((insertDesc_perm p acc).append_right l).trans ?_
    exact List.perm_middle.symm

theorem sortCountDesc_perm (l : List (String × Nat)) :
    List.Perm (sortCountDesc l) l := by
  simpa using sortCountDesc_loop_perm l []

theorem length_filterMap_eq_countP {α β : Type} (f : α → Option β) (l : List α) :
    (l.filterMap f).length = l.countP (fun a => (f a).isSome) := by
  induction l with
  | nil => rfl
  | cons a l ih =>
    rw [List.filterMap_cons, List.countP_cons]
    cases h : f a <;> simp [h, ih]

theorem count_filterMap_eq_countP {α β : Type} [DecidableEq β] [BEq β] [LawfulBEq β]
    (f : α → Option β) (l : List α) (b : β) :
    (l.filterMap f).count b = l.countP (fun a => f a == some b) := by
  induction l with
  | nil => rfl
  | cons a l ih =>
    rw [List.filterMap_cons, List.countP_cons]
    cases h : f a with
    | none => simp [h, ih]
    | some c =>
      by_cases hc : c = b
      · subst hc
        simp [h, List.count_cons, ih]
      · simp [h, List.count_cons, hc, ih]

theorem sum_map_zero {α : Type} (l : List α) : (l.map (fun _ => (0 : Nat))).sum = 0 := by
  induction l with
  | nil => rfl
  | cons a l ih => simp [ih]

theorem sum_map_add {α : Type} (l : List α) (f g : α → Nat) :
    (l.map (fun a => f a + g a)).sum = (l.map f).sum + (l.map g).sum := by
  induction l with
  | nil => rfl
  | cons a l ih =>
    simp only [List.map_cons, List.sum_cons, ih]
    omega

theorem sum_map_ite_zero {α : Type} [DecidableEq α] (l : List α) (a : α) (k : Nat)
    (h : a ∉ l) :
    (l.map (fun x => if x = a then k else 0)).sum = 0 := by
  induction l with
  | nil => rfl
  | cons b l ih =>
    rw [List.mem_cons, not_or] at h
    simp only [List.map_cons, List.sum_cons, ih h.2]
    rw [if_neg (fun e => h.1 e.symm)]

theorem sum_map_ite_one {α : Type} [DecidableEq α] (l : List α) (h : l.Nodup) (a : α)
    (ha : a ∈ l) (k : Nat) :
    (l.map (fun x => if x = a then k else 0)).sum = k := by
  induction l with
  | nil => cases ha
  | cons b l ih =>
    rw [List.nodup_cons] at h
    rcases List.mem_cons.mp ha with rfl | ha2
    · simp only [List.map_cons, List.sum_cons, if_pos rfl]
      rw [sum_map_ite_zero l a k h.1]
      simp
    · have hba : b ≠ a := fun e => h.1 (e ▸ ha2)
      simp only [List.map_cons, List.sum_cons, if_neg hba, ih h.2 ha2]
      simp

theorem sum_map_pair_ite_one (R : List Int) (C : List String)
    (hR : R.Nodup) (hC : C.Nodup) (p : Int × String)
    (h1 : p.1 ∈ R) (h2 : p.2 ∈ C) :
    (R.map (fun y => (C.map (fun l => if p = (y, l) then (1 : Nat) else 0)).sum)).sum
      = 1 := by
  have inner : ∀ y : Int,
      (C.map (fun l => if p = (y, l) then (1 : Nat) else 0)).sum
        = if y = p.1 then 1 else 0 := by
    intro y
    by_cases hy : y = p.1
    · rw [if_pos hy]
      rw [show (C.map (fun l => if p = (y, l) then (1 : Nat) else 0))
            = C.map (fun l => if l = p.2 then (1 : Nat) else 0) from
          List.map_congr_left (fun l _ => by
            by_cases hl : l = p.2
            · rw [if_pos (by rw [hy, hl, Prod.mk.eta]), if_pos hl]
            · rw [if_neg (fun e => hl (congrArg Prod.snd e).symm), if_neg hl])]
      exact sum_map_ite_one C hC p.2 h2 1
    · rw [if_neg hy]
      rw [show (C.map (fun l => if p = (y, l) then (1 : Nat) else 0))
            = C.map (fun _ => (0 : Nat)) from
          List.map_congr_left (fun l _ => by
            rw [if_neg (fun e => hy (congrArg Prod.fst e).symm)])]
      exact sum_map_zero C
  rw [List.map_congr_left (fun y _ => inner y)]
  exact sum_map_ite_one R hR p.1 h1 1

theorem sum_count_grid (pairs : List (Int × String)) (R : List Int) (C : List String)
    (hR : R.Nodup) (hC : C.Nodup)
    (hmem : ∀ p ∈ pairs, p.1 ∈ R ∧ p.2 ∈ C) :
    (R.map (fun y => (C.map (fun l => pairs.count (y, l))).sum)).sum = pairs.length := by
  induction pairs with
  | nil => simp [sum_map_zero]
  | cons p ps ih =>
    have hp := hmem p (List.mem_cons_self p ps)
    have hps : ∀ q ∈ ps, q.1 ∈ R ∧ q.2 ∈ C :=
      fun q hq => hmem q (List.mem_cons_of_mem p hq)
    have hcount : ∀ (y : Int) (l : String),
        List.count (y, l) (p :: ps)
          = List.count (y, l) ps + (if p = (y, l) then 1 else 0) := by
      intro y l
      rw [List.count_cons]
      simp
    have step1 : R.map (fun y => (C.map (fun l => List.count (y, l) (p :: ps))).sum)
        = R.map (fun y => (C.map (fun l => List.count (y, l) ps)).sum
            + (C.map (fun l => if p = (y, l) then 1 else 0)).sum) := by
      apply List.map_congr_left
      intro y _
      rw [show (C.map (fun l => List.count (y, l) (p :: ps)))
            = C.map (fun l => List.count (y, l) ps + (if p = (y, l) then 1 else 0)) from
          List.map_congr_left (fun l _ => hcount y l)]
      exact sum_map_add C _ _
    rw [step1, sum_map_add, ih hps, sum_map_pair_ite_one R C hR hC p hp.1 hp.2,
      List.length_cons]

theorem yearValueCounts_keys (xs : List Int) :
    (yearValueCounts xs).map Prod.fst = sortIntAsc (uniq xs) := by
  unfold yearValueCounts
  rw [List.map_map]
  have h : (Prod.fst ∘ fun y : Int => (y, xs.count y)) = fun y => y := rfl
  rw [h, List.map_id']

theorem yearKey_eq_some (r : Row) (y : Int) :
    yearKey r = some y ↔ r.pubDate = CellVal.num y := by
  rcases r with ⟨pd, a, lg, pb, i⟩
  cases pd <;> simp [yearKey]

theorem gridKey_eq_some (r : Row) (y : Int) (l : String) :
    gridKey r = some (y, l) ↔ r.pubDate = CellVal.num y ∧ r.language = some l := by
  rcases r with ⟨pd, a, lg, pb, i⟩
  cases pd <;> cases lg <;> simp [gridKey]

/-! ### Claim theorems -/

/-- Claim C1: for every Record Set, the Publication Trend strategy drops the
rows whose publication date is missing or non-numeric, keeps exactly the
integer years y with 1000 < y < 2100 (both bounds exclusive), and returns a
Count Series keyed by year in strictly ascending order whose count at each
year equals the number of surviving rows carrying that year; on the spec's
example dataset the series is 1900 to 1, 2020 to 2, 2021 to 1, 2022 to 1. -/
theorem C1_publication_trend_counts (rows : List Row) :
    ((publicationTrendCounts rows).map Prod.fst).Pairwise (fun a b => a < b)
    ∧ (∀ p ∈ publicationTrendCounts rows,
        1000 < p.1 ∧ p.1 < 2100
          ∧ p.2 = rows.countP (fun r => yearKey r == some p.1))
    ∧ (∀ y : Int, y ∈ (publicationTrendCounts rows).map Prod.fst ↔ y ∈ trendYears rows)
    ∧ publicationTrendCounts specRows = [(1900, 1), (2020, 2), (2021, 1), (2022, 1)] := by
  refine ⟨?_, ?_, ?_, by decide⟩
  · rw [publicationTrendCounts, yearValueCounts_keys]
    exact sortIntAsc_pairwise_lt _ (uniq_nodup _)
  · intro p hp
    rw [publicationTrendCounts, yearValueCounts] at hp
    rcases List.mem_map.mp hp with ⟨y, hy, rfl⟩
    have hyx : y ∈ trendYears rows := (uniq_mem _ _).mp ((sortIntAsc_mem _ _).mp hy)
    have hrange := List.mem_filter.mp hyx
    have h1 : 1000 < y ∧ y < 2100 := by
      have := hrange.2
      simp only [Bool.and_eq_true, decide_eq_true_eq] at this
      exact this
    refine ⟨h1.1, h1.2, ?_⟩
    show (trendYears rows).count y = rows.countP (fun r => yearKey r == some y)
    rw [trendYears, List.count_filter (by simp [h1.1, h1.2]), coercedYears,
      count_filterMap_eq_countP]
  · intro y
    rw [publicationTrendCounts, yearValueCounts_keys, sortIntAsc_mem, uniq_mem]

/-- Witness for C1 at the spec's example dataset and the pair (1900, 1). -/
theorem C1_publication_trend_counts_witness :
    1000 < (((1900 : Int), (1 : Nat))).1 ∧ (((1900 : Int), (1 : Nat))).1 < 2100
      ∧ (((1900 : Int), (1 : Nat))).2
          = specRows.countP (fun r => yearKey r == some (((1900 : Int), (1 : Nat))).1) :=
  (C1_publication_trend_counts specRows).2.1 ((1900 : Int), (1 : Nat)) (by decide)

/-- Claim C2: the Publication Trend strategy is total (it never raises);
its Trend Line is present exactly when the filtered year Count Series is
non-empty — including when the series has a single distinct year — and an
absent Trend Line accompanies an empty series.  A present Trend Line
carries the least-squares statistics of (year, count) — slope, intercept,
and the Pearson r represented exactly by its sign and its square — and its
description string is "Linear Trend: y = Sx + I (R2=Q)" where S, I, Q are
the record's own slope, intercept and squared r formatted to two decimal
places. -/
theorem C2_trend_line (rows : List Row) :
    ((PublicationTrendAnalyzer.analyze rows).trend_line.isSome
        ↔ (PublicationTrendAnalyzer.analyze rows).counts ≠ [])
    ∧ ((PublicationTrendAnalyzer.analyze rows).counts ≠ [] →
        (PublicationTrendAnalyzer.analyze rows).trend_line
          = some (mkTrendLine (publicationTrendCounts rows)))
    ∧ (∀ tl, (PublicationTrendAnalyzer.analyze rows).trend_line = some tl →
        tl.description = "Linear Trend: y = " ++ fmt2 tl.slope ++ "x + "
          ++ fmt2 tl.intercept ++ " (R2=" ++ fmt2 tl.r2 ++ ")")
    ∧ (PublicationTrendAnalyzer.analyze oneYearRows).trend_line.isSome = true := by
  have ha : PublicationTrendAnalyzer.analyze rows
      = if publicationTrendCounts rows = []
        then { counts := publicationTrendCounts rows, trend_line := none }
        else { counts := publicationTrendCounts rows,
               trend_line := some (mkTrendLine (publicationTrendCounts rows)) } := rfl
  have hone : (PublicationTrendAnalyzer.analyze oneYearRows).trend_line.isSome = true := by
    have h1 : PublicationTrendAnalyzer.analyze oneYearRows
        = if publicationTrendCounts oneYearRows = []
          then { counts := publicationTrendCounts oneYearRows, trend_line := none }
          else { counts := publicationTrendCounts oneYearRows,
                 trend_line := some (mkTrendLine (publicationTrendCounts oneYearRows)) } :=
      rfl
    rw [h1, if_neg (by decide)]
    rfl
  by_cases h : publicationTrendCounts rows = []
  · rw [ha, if_pos h]
    refine ⟨by simp [h], fun hne => absurd h hne, ?_, hone⟩
    intro tl htl
    exact absurd htl (by simp)
  · rw [ha, if_neg h]
    refine ⟨by simp [h], fun _ => rfl, ?_, hone⟩
    intro tl htl
    rw [Option.some_inj] at htl
    rw [← htl]
    rfl

/-- Witness for C2 at the two-year dataset: the series is non-empty, so the
Trend Line is present and holds the computed regression record. -/
theorem C2_trend_line_witness :
    (PublicationTrendAnalyzer.analyze twoYearRows).trend_line
      = some (mkTrendLine (publicationTrendCounts twoYearRows)) :=
  (C2_trend_line twoYearRows).2.1 (by decide)

/-- Claim C3: for every Record Set, the Missing-ISBN strategy returns the
two-entry Count Series with keys "Missing ISBN" then "With ISBN" in that
order, counting respectively the rows with a missing ISBN and the rows
with a present ISBN, and the two counts add up to the total row count. -/
theorem C3_missing_isbn (rows : List Row) :
    MissingISBNAnalyzer.analyze rows
      = [("Missing ISBN", rows.countP (fun r => r.isbn.isNone)),
         ("With ISBN", rows.countP (fun r => r.isbn.isSome))]
    ∧ (MissingISBNAnalyzer.analyze rows).map Prod.fst = ["Missing ISBN", "With ISBN"]
    ∧ ((MissingISBNAnalyzer.analyze rows).map Prod.snd).sum = rows.length := by
  have hsplit : rows.length = rows.countP (fun r => r.isbn.isNone)
      + rows.countP (fun r => r.isbn.isSome) := by
    rw [List.length_eq_countP_add_countP (fun r => r.isbn.isNone)]
    congr 1
    apply List.countP_congr
    intro r _
    cases hi : r.isbn <;> simp [hi]
  have hle : rows.countP (fun r => r.isbn.isNone) ≤ rows.length :=
    List.countP_le_length _
  have h1 : MissingISBNAnalyzer.analyze rows
      = [("Missing ISBN", rows.countP (fun r => r.isbn.isNone)),
         ("With ISBN", rows.countP (fun r => r.isbn.isSome))] := by
    show [("Missing ISBN", rows.countP (fun r => r.isbn.isNone)),
          ("With ISBN", rows.length - rows.countP (fun r => r.isbn.isNone))]
        = [("Missing ISBN", rows.countP (fun r => r.isbn.isNone)),
           ("With ISBN", rows.countP (fun r => r.isbn.isSome))]
    have : rows.length - rows.countP (fun r => r.isbn.isNone)
        = rows.countP (fun r => r.isbn.isSome) := by omega
    rw [this]
  refine ⟨h1, rfl, ?_⟩
  rw [h1]
  simp only [List.map_cons, List.map_nil, List.sum_cons, List.sum_nil]
  omega

/-- Claim C4: for every cleaned Record Set, the Language-by-Year Grid has
row labels exactly the distinct (year-bearing) publication dates of rows
that also carry a language, in strictly ascending order; column labels
exactly the languages of rows that also carry a publication date; every
cell equals the exact number of input rows with that (year, language)
pair; and the cell of every absent combination is 0. -/
theorem C4_language_year_grid (rows : List Row) (hc : Cleaned rows) :
    ((LanguageYearAnalyzer.analyze rows).rowKeys.Pairwise (fun a b => a < b))
    ∧ (∀ y : Int, y ∈ (LanguageYearAnalyzer.analyze rows).rowKeys
        ↔ ∃ r ∈ rows, r.pubDate = CellVal.num y ∧ r.language.isSome)
    ∧ (∀ l : String, l ∈ (LanguageYearAnalyzer.analyze rows).colKeys
        ↔ ∃ r ∈ rows, r.pubDate ≠ CellVal.missing ∧ r.language = some l)
    ∧ (∀ (y : Int) (l : String),
        (LanguageYearAnalyzer.analyze rows).cell y l
          = rows.countP (fun r => gridKey r == some (y, l)))
    ∧ (∀ (y : Int) (l : String), (y, l) ∉ gridPairs rows →
        (LanguageYearAnalyzer.analyze rows).cell y l = 0) := by
  have hrk : (LanguageYearAnalyzer.analyze rows).rowKeys
      = sortIntAsc (uniq ((gridPairs rows).map Prod.fst)) := rfl
  have hck : (LanguageYearAnalyzer.analyze rows).colKeys
      = sortStrAsc (uniq ((gridPairs rows).map Prod.snd)) := rfl
  have hcell : ∀ (y : Int) (l : String),
      (LanguageYearAnalyzer.analyze rows).cell y l = (gridPairs rows).count (y, l) :=
    fun y l => rfl
  refine ⟨?_, ?_, ?_, ?_, ?_⟩
  · rw [hrk]
    exact sortIntAsc_pairwise_lt _ (uniq_nodup _)
  · intro y
    rw [hrk, sortIntAsc_mem, uniq_mem]
    simp only [gridPairs, List.mem_map, List.mem_filterMap]
    constructor
    · rintro ⟨⟨y2, l2⟩, ⟨r, hr, hk⟩, h1⟩
      rcases (gridKey_eq_some r y2 l2).mp hk with ⟨hpd, hl⟩
      refine ⟨r, hr, ?_, by simp [hl]⟩
      rw [← h1]
      exact hpd
    · rintro ⟨r, hr, hpd, hl⟩
      rcases Option.isSome_iff_exists.mp hl with ⟨l, hl2⟩
      exact ⟨(y, l), ⟨r, hr, (gridKey_eq_some r y l).mpr ⟨hpd, hl2⟩⟩, rfl⟩
  · intro l
    rw [hck, sortStrAsc_mem, uniq_mem]
    simp only [gridPairs, List.mem_map, List.mem_filterMap]
    constructor
    · rintro ⟨⟨y2, l2⟩, ⟨r, hr, hk⟩, h1⟩
      rcases (gridKey_eq_some r y2 l2).mp hk with ⟨hpd, hl⟩
      refine ⟨r, hr, by simp [hpd], ?_⟩
      rw [← h1]
      exact hl
    · rintro ⟨r, hr, hmiss, hl⟩
      have hinv := hc r hr
      cases hpd : r.pubDate with
      | num y =>
        exact ⟨(y, l), ⟨r, hr, (gridKey_eq_some r y l).mpr ⟨hpd, hl⟩⟩, rfl⟩
      | invalid => exact absurd hpd hinv
      | missing => exact absurd hpd hmiss
  · intro y l
    rw [hcell, gridPairs, count_filterMap_eq_countP]
  · intro y l hyl
    rw [hcell]
    exact List.count_eq_zero.mpr hyl

/-- Witness for C4 at the cleaned example dataset: its grid's row labels
are strictly ascending. -/
theorem C4_language_year_grid_witness :
    ((LanguageYearAnalyzer.analyze gridRows).rowKeys.Pairwise (fun a b => a < b)) :=
  (C4_language_year_grid gridRows (by unfold Cleaned; decide)).1

/-- Claim C5: for every Record Set, the Top Authors strategy returns at
most 5 entries with weakly decreasing counts and pairwise distinct author
keys; each entry holds the exact occurrence count of an author value that
occurs in the data.  On the spec's example dataset the result is exactly
A 3, B 2, C 1, D 1, E 1, and on a dataset whose authors appear in the
order B, A, B, A, C the tie between A and B (2 each) is broken by
first-encounter order — B before A — not alphabetically. -/
theorem C5_top_authors (rows : List Row) :
    (AuthorsAnalyzer.analyze rows).length ≤ 5
    ∧ ((AuthorsAnalyzer.analyze rows).map Prod.snd).Pairwise (fun a b => b ≤ a)
    ∧ (∀ p ∈ AuthorsAnalyzer.analyze rows,
        p.2 = rows.countP (fun r => r.author == some p.1)
          ∧ ∃ r ∈ rows, r.author = some p.1)
    ∧ ((AuthorsAnalyzer.analyze rows).map Prod.fst).Nodup
    ∧ AuthorsAnalyzer.analyze specRows
        = [("Author A", 3), ("Author B", 2), ("Author C", 1), ("Author D", 1),
           ("Author E", 1)]
    ∧ AuthorsAnalyzer.analyze tieRows = [("B", 2), ("A", 2), ("C", 1)] := by
  have hres : AuthorsAnalyzer.analyze rows
      = (sortCountDesc ((uniq (rows.filterMap (fun r => r.author))).map
          (fun a => (a, (rows.filterMap (fun r => r.author)).count a)))).take 5 := rfl
  refine ⟨?_, ?_, ?_, ?_, by decide, by decide⟩
  · rw [hres]
    exact List.length_take_le 5 _
  · rw [hres]
    have hs := sortCountDesc_sorted ((uniq (rows.filterMap (fun r => r.author))).map
      (fun a => (a, (rows.filterMap (fun r => r.author)).count a)))
    exact List.pairwise_map.mpr (hs.sublist (List.take_sublist 5 _))
  · intro p hp
    rw [hres] at hp
    have hp2 := (sortCountDesc_perm _).mem_iff.mp (List.take_subset 5 _ hp)
    rcases List.mem_map.mp hp2 with ⟨a, ha, rfl⟩
    have ha2 : a ∈ rows.filterMap (fun r => r.author) := (uniq_mem _ _).mp ha
    constructor
    · show (rows.filterMap (fun r => r.author)).count a
        = rows.countP (fun r => r.author == some a)
      exact count_filterMap_eq_countP _ rows a
    · exact List.mem_filterMap.mp ha2
  · rw [hres]
    have hperm : List.Perm ((sortCountDesc ((uniq (rows.filterMap (fun r => r.author))).map
          (fun a => (a, (rows.filterMap (fun r => r.author)).count a)))).map Prod.fst)
        (((uniq (rows.filterMap (fun r => r.author))).map
          (fun a => (a, (rows.filterMap (fun r => r.author)).count a))).map Prod.fst) :=
      (sortCountDesc_perm _).map Prod.fst
    have hkeys : (((uniq (rows.filterMap (fun r => r.author))).map
          (fun a => (a, (rows.filterMap (fun r => r.author)).count a))).map Prod.fst)
        = uniq (rows.filterMap (fun r => r.author)) := by
      rw [List.map_map]
      have h : (Prod.fst ∘ fun a : String =>
          (a, (rows.filterMap (fun r => r.author)).count a)) = fun a => a := rfl
      rw [h, List.map_id']
    have hnd0 : (((uniq (rows.filterMap (fun r => r.author))).map
          (fun a => (a, (rows.filterMap (fun r => r.author)).count a))).map Prod.fst).Nodup := by
      rw [hkeys]
      exact uniq_nodup _
    have hnd : ((sortCountDesc ((uniq (rows.filterMap (fun r => r.author))).map
          (fun a => (a, (rows.filterMap (fun r => r.author)).count a)))).map Prod.fst).Nodup :=
      hperm.nodup_iff.mpr hnd0
    rw [List.map_take]
    exact hnd.sublist (List.take_sublist 5 _)

/-- Witness for C5 at the spec's example dataset and the entry (A, 3). -/
theorem C5_top_authors_witness :
    ((("Author A"), (3 : Nat))).2
        = specRows.countP (fun r => r.author == some ((("Author A"), (3 : Nat))).1)
      ∧ ∃ r ∈ specRows, r.author = some ((("Author A"), (3 : Nat))).1 :=
  (C5_top_authors specRows).2.2.1 (("Author A"), 3) (by decide)

/-- Claim C6 counterexample: on an empty Record Set the Missing-ISBN
strategy does not return an empty Count Series — it returns its fixed
two-entry series with both counts 0. -/
theorem C6_empty_counterexample :
    MissingISBNAnalyzer.analyze ([] : List Row)
        = [("Missing ISBN", 0), ("With ISBN", 0)]
    ∧ MissingISBNAnalyzer.analyze ([] : List Row) ≠ ([] : List (String × Nat)) :=
  ⟨rfl, by decide⟩

/-- Claim C6 (amended): on an empty Record Set no strategy raises; the
Publication Trend (with absent Trend Line), Top Authors, Language
Distribution and Publisher strategies return an empty Count Series, the
Language-by-Year grid is empty (no row labels, no column labels, every
cell 0), while the Missing-ISBN strategy returns its fixed two-entry
series with both counts 0 rather than an empty series. -/
theorem C6_empty_record_set :
    PublicationTrendAnalyzer.analyze [] = { counts := [], trend_line := none }
    ∧ AuthorsAnalyzer.analyze [] = []
    ∧ LanguageDistributionAnalyzer.analyze [] = []
    ∧ PublisherAnalyzer.analyze [] = []
    ∧ MissingISBNAnalyzer.analyze [] = [("Missing ISBN", 0), ("With ISBN", 0)]
    ∧ (LanguageYearAnalyzer.analyze []).rowKeys = []
    ∧ (LanguageYearAnalyzer.analyze []).colKeys = []
    ∧ ∀ (y : Int) (l : String), (LanguageYearAnalyzer.analyze []).cell y l = 0 :=
  ⟨rfl, rfl, rfl, rfl, rfl, rfl, rfl, fun _ _ => rfl⟩

/-- Claim C7: each of the six strategies leaves the Record Set it is given
unchanged (none of the pandas operations its body performs mutates the
input frame), and re-running a strategy on that unchanged Record Set
returns an identical Analysis Result. -/
theorem C7_idempotent_no_mutation (rows : List Row) :
    ((PublicationTrendAnalyzer.analyzeS rows).2 = rows
      ∧ (PublicationTrendAnalyzer.analyzeS ((PublicationTrendAnalyzer.analyzeS rows).2)).1
          = (PublicationTrendAnalyzer.analyzeS rows).1)
    ∧ ((AuthorsAnalyzer.analyzeS rows).2 = rows
      ∧ (AuthorsAnalyzer.analyzeS ((AuthorsAnalyzer.analyzeS rows).2)).1
          = (AuthorsAnalyzer.analyzeS rows).1)
    ∧ ((LanguageDistributionAnalyzer.analyzeS rows).2 = rows
      ∧ (LanguageDistributionAnalyzer.analyzeS
            ((LanguageDistributionAnalyzer.analyzeS rows).2)).1
          = (LanguageDistributionAnalyzer.analyzeS rows).1)
    ∧ ((PublisherAnalyzer.analyzeS rows).2 = rows
      ∧ (PublisherAnalyzer.analyzeS ((PublisherAnalyzer.analyzeS rows).2)).1
          = (PublisherAnalyzer.analyzeS rows).1)
    ∧ ((MissingISBNAnalyzer.analyzeS rows).2 = rows
      ∧ (MissingISBNAnalyzer.analyzeS ((MissingISBNAnalyzer.analyzeS rows).2)).1
          = (MissingISBNAnalyzer.analyzeS rows).1)
    ∧ ((LanguageYearAnalyzer.analyzeS rows).2 = rows
      ∧ (LanguageYearAnalyzer.analyzeS ((LanguageYearAnalyzer.analyzeS rows).2)).1
          = (LanguageYearAnalyzer.analyzeS rows).1) :=
  ⟨⟨rfl, rfl⟩, ⟨rfl, rfl⟩, ⟨rfl, rfl⟩, ⟨rfl, rfl⟩, ⟨rfl, rfl⟩, ⟨rfl, rfl⟩⟩

theorem isSome_opt_map {α β : Type} (f : α → β) (o : Option α) :
    (o.map f).isSome = o.isSome := by
  cases o <;> rfl

theorem find_entry_cons_pos {α : Type} (q : String × α) (m : List (String × α)) (s : String)
    (h : (q.1 == s) = true) :
    (q :: m).find? (fun p => p.1 == s) = some q :=
  List.find?_cons_of_pos m h

theorem find_entry_cons_neg {α : Type} (q : String × α) (m : List (String × α)) (s : String)
    (h : (q.1 == s) = false) :
    (q :: m).find? (fun p => p.1 == s) = m.find? (fun p => p.1 == s) :=
  List.find?_cons_of_neg m (by simp [h])

theorem find_map_overwrite {α : Type} (m : List (String × α)) (k : String) (v : α)
    (h : m.any (fun p => p.1 == k) = true) :
    ((m.map (fun p => if p.1 == k then (k, v) else p)).find?
        (fun p => p.1 == k)).map Prod.snd = some v := by
  induction m with
  | nil => simp at h
  | cons q m ih =>
    rw [List.map_cons]
    by_cases hq : (q.1 == k) = true
    · rw [if_pos hq, find_entry_cons_pos (k, v) _ k (by simp)]
      rfl
    · have h2 : m.any (fun p => p.1 == k) = true := by
        rcases List.any_eq_true.mp h with ⟨p, hp, hpk⟩
        rcases List.mem_cons.mp hp with rfl | hpm
        · exact absurd hpk hq
        · exact List.any_eq_true.mpr ⟨p, hpm, hpk⟩
      rw [if_neg hq, find_entry_cons_neg q _ k (by simpa using hq)]
      exact ih h2

theorem find_map_ne {α : Type} (m : List (String × α)) (k k2 : String) (v : α)
    (h : k2 ≠ k) :
    (m.map (fun p => if p.1 == k then (k, v) else p)).find? (fun p => p.1 == k2)
      = m.find? (fun p => p.1 == k2) := by
  have hkk2 : (k == k2) = false := by
    simpa using fun e => h e.symm
  induction m with
  | nil => rfl
  | cons q m ih =>
    rw [List.map_cons]
    by_cases hq : (q.1 == k) = true
    · have hqk : q.1 = k := by simpa using hq
      have hq2 : (q.1 == k2) = false := by
        rw [hqk]
        exact hkk2
      rw [if_pos hq, find_entry_cons_neg (k, v) _ k2 hkk2, find_entry_cons_neg q _ k2 hq2,
        ih]
    · by_cases hq2 : (q.1 == k2) = true
      · rw [if_neg hq, find_entry_cons_pos q _ k2 hq2, find_entry_cons_pos q _ k2 hq2]
      · rw [if_neg hq, find_entry_cons_neg q _ k2 (by simpa using hq2),
          find_entry_cons_neg q _ k2 (by simpa using hq2), ih]

/-- Claim C8: the Analysis Registry's `register` overwrites the entry of an
existing key (leaving every other key's entry unchanged), `get` never
raises — it returns the registered entry or the absent marker, being
present exactly for registered keys — and `list_keys` returns the keys in
registration order: unchanged when an existing key is overwritten, with
the new key appended at the end otherwise. -/
theorem C8_registry {α : Type} (m : List (String × α)) (k : String) (v : α) :
    AnalysisContext.get_analyzer (AnalysisContext.register_analyzer m k v) k = some v
    ∧ (∀ k2, k2 ≠ k →
        AnalysisContext.get_analyzer (AnalysisContext.register_analyzer m k v) k2
          = AnalysisContext.get_analyzer m k2)
    ∧ (∀ k3, (AnalysisContext.get_analyzer m k3).isSome
          ↔ k3 ∈ AnalysisContext.get_available_analyses m)
    ∧ AnalysisContext.get_available_analyses (AnalysisContext.register_analyzer m k v)
        = (if k ∈ AnalysisContext.get_available_analyses m
           then AnalysisContext.get_available_analyses m
           else AnalysisContext.get_available_analyses m ++ [k]) := by
  refine ⟨?_, ?_, ?_, ?_⟩
  · unfold AnalysisContext.register_analyzer AnalysisContext.get_analyzer
    by_cases hany : m.any (fun p => p.1 == k)
    · rw [if_pos hany]
      exact find_map_overwrite m k v hany
    · rw [if_neg hany]
      rw [List.find?_append]
      have hnone : m.find? (fun p => p.1 == k) = none := by
        rw [List.find?_eq_none]
        intro p hp hpk
        exact hany (List.any_eq_true.mpr ⟨p, hp, hpk⟩)
      rw [hnone]
      simp [List.find?_cons]
  · intro k2 hk2
    unfold AnalysisContext.register_analyzer AnalysisContext.get_analyzer
    by_cases hany : m.any (fun p => p.1 == k)
    · rw [if_pos hany, find_map_ne m k k2 v hk2]
    · rw [if_neg hany, List.find?_append]
      have hlast : List.find? (fun p => p.1 == k2) [(k, v)] = none := by
        rw [find_entry_cons_neg (k, v) [] k2 (by simpa using fun e => hk2 e.symm)]
        rfl
      rw [hlast]
      simp
  · intro k3
    unfold AnalysisContext.get_analyzer AnalysisContext.get_available_analyses
    rw [isSome_opt_map]
    rw [List.find?_isSome]
    simp only [List.mem_map, beq_iff_eq]
  · unfold AnalysisContext.register_analyzer AnalysisContext.get_available_analyses
    by_cases hany : m.any (fun p => p.1 == k)
    · have hk : k ∈ m.map Prod.fst := by
        rcases List.any_eq_true.mp hany with ⟨p, hp, hpk⟩
        exact List.mem_map.mpr ⟨p, hp, by simpa using hpk⟩
      rw [if_pos hany, if_pos hk, List.map_map]
      apply List.map_congr_left
      intro p _
      by_cases hp : (p.1 == k) = true
      · have hpk : p.1 = k := by simpa using hp
        simp [hpk]
      · have hpk : ¬ p.1 = k := by simpa using hp
        simp [hpk]
    · have hk : k ∉ m.map Prod.fst := by
        intro hmem
        rcases List.mem_map.mp hmem with ⟨p, hp, he⟩
        exact hany (List.any_eq_true.mpr ⟨p, hp, by simp [he]⟩)
      rw [if_neg hany, if_neg hk, List.map_append]
      rfl

/-- Witness for C8: with key "1" registered, registering key "2" leaves the
entry of key "1" unchanged. -/
theorem C8_registry_witness :
    AnalysisContext.get_analyzer
        (AnalysisContext.register_analyzer [(("1"), (10 : Nat))] ("2") 20) ("1")
      = AnalysisContext.get_analyzer [(("1"), (10 : Nat))] ("1") :=
  (C8_registry [(("1"), (10 : Nat))] ("2") 20).2.1 ("1") (by decide)

/-- Claim C9 counterexample: on an 11-entry distribution series whose most
frequent label is itself 'Other', the collapsing overwrites that entry
instead of appending, producing 10 entries (not 11) whose total differs
from the original sum. -/
theorem C9_collapse_counterexample :
    10 < otherSeries.length
    ∧ (collapseTop10 otherSeries).length ≠ 11
    ∧ ((collapseTop10 otherSeries).map Prod.snd).sum
        ≠ (otherSeries.map Prod.snd).sum := by
  refine ⟨by decide, by decide, by decide⟩

/-- Claim C9 (amended): a distribution series of at most 10 entries is
passed to the renderer unchanged; a longer one whose first 10 labels do
not include 'Other' collapses to exactly 11 entries — the first 10
unchanged plus an 'Other' entry holding the sum of the remaining counts —
with the total sum preserved.  (When 'Other' is among the first 10 labels
the assignment overwrites that entry instead, yielding 10 entries and in
general a different total.) -/
theorem C9_collapse_top10 (s : List (String × Nat)) :
    (s.length ≤ 10 → collapseTop10 s = s)
    ∧ (10 < s.length → "Other" ∉ (s.take 10).map Prod.fst →
        collapseTop10 s
            = s.take 10 ++ [("Other", (((s.drop 10).map Prod.snd).sum))]
          ∧ (collapseTop10 s).length = 11
          ∧ ((collapseTop10 s).map Prod.snd).sum = (s.map Prod.snd).sum) := by
  constructor
  · intro h
    rw [collapseTop10, if_neg (by omega)]
  · intro h10 hother
    have hany : ((s.take 10).any (fun p => p.1 == "Other")) = false := by
      rw [List.any_eq_false]
      intro p hp
      simp only [beq_iff_eq]
      intro he
      exact hother (List.mem_map.mpr ⟨p, hp, he⟩)
    have hcol : collapseTop10 s
        = s.take 10 ++ [("Other", (((s.drop 10).map Prod.snd).sum))] := by
      rw [collapseTop10, if_pos h10, setLabel, if_neg (by simp [hany])]
    refine ⟨hcol, ?_, ?_⟩
    · rw [hcol, List.length_append, List.length_take]
      have : min 10 s.length = 10 := by omega
      rw [this]
      rfl
    · rw [hcol]
      conv_rhs => rw [← List.take_append_drop 10 s]
      rw [List.map_append, List.sum_append, List.map_append, List.sum_append]
      simp

/-- Witness for C9 at an 11-entry series with no 'Other' label: the
collapsed series has exactly 11 entries. -/
theorem C9_collapse_top10_witness :
    (collapseTop10 bigSeries).length = 11 :=
  ((C9_collapse_top10 bigSeries).2 (by decide) (by decide)).2.1

/-- Claim C10: for every cleaned Record Set, the Language-by-Year Grid
counts exactly the rows carrying both a publication date and a language:
the sum of all grid cells equals the number of such rows, which never
exceeds — and, as the concrete example shows, can be strictly less than —
the Record Set's total row count. -/
theorem C10_grid_excludes_missing (rows : List Row) (hc : Cleaned rows) :
    gridTotal (LanguageYearAnalyzer.analyze rows)
        = rows.countP (fun r => !(r.pubDate == CellVal.missing) && r.language.isSome)
    ∧ rows.countP (fun r => !(r.pubDate == CellVal.missing) && r.language.isSome)
        ≤ rows.length
    ∧ gridTotal (LanguageYearAnalyzer.analyze gridRows) < gridRows.length := by
  refine ⟨?_, List.countP_le_length _, by decide⟩
  have h1 : gridTotal (LanguageYearAnalyzer.analyze rows) = (gridPairs rows).length := by
    show ((sortIntAsc (uniq ((gridPairs rows).map Prod.fst))).map
        (fun y => ((sortStrAsc (uniq ((gridPairs rows).map Prod.snd))).map
          (fun l => (gridPairs rows).count (y, l))).sum)).sum = (gridPairs rows).length
    apply sum_count_grid
    · exact (sortIntAsc_perm _).nodup_iff.mpr (uniq_nodup _)
    · exact (List.perm_insertionSort _ _).nodup_iff.mpr (uniq_nodup _)
    · intro p hp
      constructor
      · rw [sortIntAsc_mem, uniq_mem]
        exact List.mem_map.mpr ⟨p, hp, rfl⟩
      · rw [sortStrAsc_mem, uniq_mem]
        exact List.mem_map.mpr ⟨p, hp, rfl⟩
  rw [h1, gridPairs, length_filterMap_eq_countP]
  apply List.countP_congr
  intro r hr
  have hinv := hc r hr
  rcases r with ⟨pd, a, lg, pb, i⟩
  cases pd <;> cases lg <;> simp_all [gridKey]

/-- Witness for C10 at the cleaned example dataset: two of its four rows
lack a language or a publication date, so the grid total (2) is strictly
below the row count (4). -/
theorem C10_grid_excludes_missing_witness :
    gridTotal (LanguageYearAnalyzer.analyze gridRows) < gridRows.length :=
  (C10_grid_excludes_missing gridRows (by unfold Cleaned; decide)).2.2
